import Mathlib

/-!
Verification of the history & delta engine, profile resolver and profile
validation of the cluster-assessment-operator repository, against a shallow
embedding of the Go sources.

Conventions of the embedding:
* Go `string` becomes `String`, Go `int` becomes `Int` (no overflow is
  relevant at the values involved), Go slices become `List`.
* Go nil-able pointers (`*int`, `*DeltaSummary`, ...) become `Option`.
* A Go `map[string]FindingStatus` built by insertion is represented by its
  lookup function (`String → Option FindingStatus`, later insertions win)
  together with the list of inserted keys (`List.dedup` of the ids); Go map
  iteration order is arbitrary and every list derived from a map iteration
  is sorted before it is returned, so only key membership matters.
-/

/-- Finding status wire values (`FindingStatus` in api/v1alpha1).  The CRD
restricts the field to the four enum values PASS, WARN, FAIL, INFO. -/
inductive FindingStatus where
  | PASS
  | WARN
  | FAIL
  | INFO
deriving DecidableEq, Repr

/-- `severityLevel` from pkg/history/snapshot.go: numeric level for
comparison, higher = more severe. -/
def severityLevel : FindingStatus → Nat
  | .INFO => 0
  | .PASS => 1
  | .WARN => 2
  | .FAIL => 3

/-- Modelled from the spec: the severity ranks used by the orchestrator's
severity filter (§4.2, "Ranks: INFO=0, PASS=1, WARN=2, FAIL=3").  The
orchestrator source is not part of the provided sources. -/
def filterSeverityRank : FindingStatus → Nat
  | .INFO => 0
  | .PASS => 1
  | .WARN => 2
  | .FAIL => 3

/-- Compact finding (`FindingSnapshot` in api/v1alpha1). -/
structure FindingSnapshot where
  ID : String
  Validator : String
  Category : String
  Status : FindingStatus
  Title : String
  Resource : String
  Namespace : String
deriving DecidableEq, Repr

/-- One command step of a remediation procedure (`RemediationCommand`). -/
structure RemediationCommand where
  Command : String
  Description : String
  RequiresConfirmation : Bool
deriving DecidableEq, Repr

/-- Structured remediation guidance (`RemediationGuidance`); `Safety` keeps
the wire string ("safe-apply" / "requires-review" / "destructive"). -/
structure RemediationGuidance where
  Safety : String
  Commands : List RemediationCommand
  DocumentationURL : String
  EstimatedImpact : String
  Prerequisites : List String
deriving DecidableEq, Repr

/-- Full finding (`Finding` in api/v1alpha1). -/
structure Finding where
  ID : String
  Validator : String
  Category : String
  Resource : String
  Namespace : String
  Status : FindingStatus
  Title : String
  Description : String
  Impact : String
  Recommendation : String
  References : List String
  Remediation : Option RemediationGuidance
  Suppressed : Bool
  SuppressionReason : String
deriving DecidableEq, Repr

/-- Assessment summary (`AssessmentSummary` in api/v1alpha1). -/
structure AssessmentSummary where
  TotalChecks : Int
  PassCount : Int
  WarnCount : Int
  FailCount : Int
  InfoCount : Int
  Score : Option Int
  ProfileUsed : String
deriving DecidableEq, Repr

/-- Cluster metadata (`ClusterInfo` in api/v1alpha1). -/
structure ClusterInfo where
  ClusterID : String
  ClusterVersion : String
  Platform : String
  Channel : String
  NodeCount : Int
  ControlPlaneNodes : Int
  WorkerNodes : Int
deriving DecidableEq, Repr

/-- Delta summary (`DeltaSummary` in api/v1alpha1). -/
structure DeltaSummary where
  NewFindings : List String
  ResolvedFindings : List String
  RegressionFindings : List String
  ImprovedFindings : List String
  ScoreDelta : Option Int
deriving DecidableEq, Repr

/-- Snapshot spec (`AssessmentSnapshotSpec`). -/
structure AssessmentSnapshotSpec where
  AssessmentName : String
  Profile : String
deriving DecidableEq, Repr

/-- Snapshot status (`AssessmentSnapshotStatus`); `RunTime` is the
timestamp as an integer instant. -/
structure AssessmentSnapshotStatus where
  RunTime : Int
  Summary : AssessmentSummary
  clusterInfo : ClusterInfo
  Findings : List FindingSnapshot
  Delta : Option DeltaSummary
  PreviousSnapshotName : String
deriving DecidableEq, Repr

/-- Snapshot record (`AssessmentSnapshot`): object name plus spec/status. -/
structure AssessmentSnapshot where
  Name : String
  Spec : AssessmentSnapshotSpec
  Status : AssessmentSnapshotStatus
deriving DecidableEq, Repr

/-- `compactFindings` from pkg/history/snapshot.go: converts full findings
to compact snapshots, keeping id/validator/category/status/title/resource/
namespace only. -/
def compactFindings (findings : List Finding) : List FindingSnapshot :=
  findings.map fun f =>
    { ID := f.ID
      Validator := f.Validator
      Category := f.Category
      Status := f.Status
      Title := f.Title
      Resource := f.Resource
      Namespace := f.Namespace }

/-- The lookup function of the Go map `findingID -> status` built by
`currentMap[f.ID] = f.Status` over the list in order (later entries win). -/
def buildStatusMap (fs : List FindingSnapshot) : String → Option FindingStatus :=
  fs.foldl (fun m f => fun id => if id = f.ID then some f.Status else m id) (fun _ => none)

/-- `sort.Strings` of the Go source: ascending lexicographic sort. -/
def sortStrings (l : List String) : List String :=
  List.insertionSort (fun a b => a ≤ b) l

/-- Body of `ComputeDelta` for a non-nil previous snapshot.  Each `filter`
is the corresponding `for ... range` loop over the Go map; the two key
lists stand for map iteration (order irrelevant: results are sorted). -/
def deltaCore (current : List FindingSnapshot) (currentScore : Option Int)
    (prev : AssessmentSnapshot) : DeltaSummary :=
  let currentMap := buildStatusMap current
  let currentKeys := (current.map (·.ID)).dedup
  let previousMap := buildStatusMap prev.Status.Findings
  let previousKeys := (prev.Status.Findings.map (·.ID)).dedup
  let newF := currentKeys.filter fun id => (previousMap id).isNone
  let resolved := previousKeys.filter fun id => (currentMap id).isNone
  let regressed := currentKeys.filter fun id =>
    match currentMap id, previousMap id with
    | some cs, some ps => decide (cs ≠ ps) && decide (severityLevel ps < severityLevel cs)
    | _, _ => false
  let improved := currentKeys.filter fun id =>
    match currentMap id, previousMap id with
    | some cs, some ps => decide (cs ≠ ps) && decide (severityLevel cs ≤ severityLevel ps)
    | _, _ => false
  { NewFindings := sortStrings newF
    ResolvedFindings := sortStrings resolved
    RegressionFindings := sortStrings regressed
    ImprovedFindings := sortStrings improved
    ScoreDelta :=
      match currentScore, prev.Status.Summary.Score with
      | some c, some p => some (c - p)
      | _, _ => none }

/-- `ComputeDelta` from pkg/history/snapshot.go. -/
def ComputeDelta (current : List FindingSnapshot) (currentScore : Option Int)
    (previous : Option AssessmentSnapshot) : Option DeltaSummary :=
  match previous with
  | none => none
  | some prev => some (deltaCore current currentScore prev)

/-! ### Lemmas about the map embedding -/

theorem buildStatusMap_aux (fs : List FindingSnapshot) (id : String)
    (acc : String → Option FindingStatus) :
    fs.foldl (fun m f => fun i => if i = f.ID then some f.Status else m i) acc id =
      match buildStatusMap fs id with
      | some v => some v
      | none => acc id := by
  induction fs generalizing acc with
  | nil => rfl
  | cons f fs ih =>
    simp only [buildStatusMap, List.foldl_cons]
    rw [ih (fun i => if i = f.ID then some f.Status else acc i),
      ih (fun i => if i = f.ID then some f.Status else none)]
    cases hb : buildStatusMap fs id <;> by_cases hid : id = f.ID <;> simp [hid]

theorem buildStatusMap_cons (f : FindingSnapshot) (fs : List FindingSnapshot) (id : String) :
    buildStatusMap (f :: fs) id =
      match buildStatusMap fs id with
      | some v => some v
      | none => if id = f.ID then some f.Status else none := by
  unfold buildStatusMap
  simp only [List.foldl_cons]
  exact buildStatusMap_aux fs id _

theorem buildStatusMap_eq_none_iff (fs : List FindingSnapshot) (id : String) :
    buildStatusMap fs id = none ↔ id ∉ fs.map FindingSnapshot.ID := by
  induction fs with
  | nil => simp [buildStatusMap]
  | cons f fs ih =>
    rw [buildStatusMap_cons]
    cases hb : buildStatusMap fs id with
    | some v =>
      have hmem : id ∈ fs.map FindingSnapshot.ID := by
        by_contra hn
        rw [ih.mpr hn] at hb
        exact Option.noConfusion hb
      simp [hmem]
    | none =>
      by_cases hid : id = f.ID
      · simp [hid]
      · have h2 := ih.mp hb
        simp [hid, h2]

theorem buildStatusMap_some_iff (fs : List FindingSnapshot) (id : String) :
    (∃ v, buildStatusMap fs id = some v) ↔ id ∈ fs.map FindingSnapshot.ID := by
  constructor
  · rintro ⟨v, hv⟩
    by_contra hn
    rw [(buildStatusMap_eq_none_iff fs id).mpr hn] at hv
    exact Option.noConfusion hv
  · intro hmem
    cases h : buildStatusMap fs id with
    | some v => exact ⟨v, rfl⟩
    | none => exact absurd hmem ((buildStatusMap_eq_none_iff fs id).mp h)

theorem mem_sortStrings (l : List String) (a : String) : a ∈ sortStrings l ↔ a ∈ l :=
  (List.perm_insertionSort _ l).mem_iff

theorem sorted_sortStrings (l : List String) :
    List.Sorted (fun a b : String => a ≤ b) (sortStrings l) :=
  List.sorted_insertionSort _ l

/-! ### Characterization of the four delta sequences -/

theorem mem_deltaCore_new (cur : List FindingSnapshot) (score : Option Int)
    (prev : AssessmentSnapshot) (id : String) :
    id ∈ (deltaCore cur score prev).NewFindings ↔
      id ∈ cur.map FindingSnapshot.ID ∧
        id ∉ prev.Status.Findings.map FindingSnapshot.ID := by
  simp [deltaCore, mem_sortStrings, List.mem_filter, List.mem_dedup,
    Option.isNone_iff_eq_none, buildStatusMap_eq_none_iff]

theorem mem_deltaCore_resolved (cur : List FindingSnapshot) (score : Option Int)
    (prev : AssessmentSnapshot) (id : String) :
    id ∈ (deltaCore cur score prev).ResolvedFindings ↔
      id ∈ prev.Status.Findings.map FindingSnapshot.ID ∧
        id ∉ cur.map FindingSnapshot.ID := by
  simp [deltaCore, mem_sortStrings, List.mem_filter, List.mem_dedup,
    Option.isNone_iff_eq_none, buildStatusMap_eq_none_iff]

theorem mem_deltaCore_regressed (cur : List FindingSnapshot) (score : Option Int)
    (prev : AssessmentSnapshot) (id : String) :
    id ∈ (deltaCore cur score prev).RegressionFindings ↔
      ∃ cs ps, buildStatusMap cur id = some cs ∧
        buildStatusMap prev.Status.Findings id = some ps ∧
        cs ≠ ps ∧ severityLevel ps < severityLevel cs := by
  simp only [deltaCore, mem_sortStrings, List.mem_filter, List.mem_dedup]
  constructor
  · rintro ⟨hmem, hp⟩
    rcases hc : buildStatusMap cur id with _ | cs <;> rw [hc] at hp
    · simp at hp
    rcases hpv : buildStatusMap prev.Status.Findings id with _ | ps <;> rw [hpv] at hp
    · simp at hp
    simp only [Bool.and_eq_true, decide_eq_true_eq] at hp
    exact ⟨cs, ps, rfl, rfl, hp.1, hp.2⟩
  · rintro ⟨cs, ps, hc, hpv, hne, hlt⟩
    refine ⟨(buildStatusMap_some_iff cur id).mp ⟨cs, hc⟩, ?_⟩
    rw [hc, hpv]
    simp [hne, hlt]

theorem mem_deltaCore_improved (cur : List FindingSnapshot) (score : Option Int)
    (prev : AssessmentSnapshot) (id : String) :
    id ∈ (deltaCore cur score prev).ImprovedFindings ↔
      ∃ cs ps, buildStatusMap cur id = some cs ∧
        buildStatusMap prev.Status.Findings id = some ps ∧
        cs ≠ ps ∧ severityLevel cs ≤ severityLevel ps := by
  simp only [deltaCore, mem_sortStrings, List.mem_filter, List.mem_dedup]
  constructor
  · rintro ⟨hmem, hp⟩
    rcases hc : buildStatusMap cur id with _ | cs <;> rw [hc] at hp
    · simp at hp
    rcases hpv : buildStatusMap prev.Status.Findings id with _ | ps <;> rw [hpv] at hp
    · simp at hp
    simp only [Bool.and_eq_true, decide_eq_true_eq] at hp
    exact ⟨cs, ps, rfl, rfl, hp.1, hp.2⟩
  · rintro ⟨cs, ps, hc, hpv, hne, hle⟩
    refine ⟨(buildStatusMap_some_iff cur id).mp ⟨cs, hc⟩, ?_⟩
    rw [hc, hpv]
    simp [hne, hle]

theorem deltaCore_scoreDelta (cur : List FindingSnapshot) (score : Option Int)
    (prev : AssessmentSnapshot) :
    (deltaCore cur score prev).ScoreDelta =
      match score, prev.Status.Summary.Score with
      | some c, some p => some (c - p)
      | _, _ => none := rfl

/-! ### Claim theorems for the delta engine -/

/-- C1: `ComputeDelta` returns nil when the previous snapshot is nil;
otherwise `newFindings` holds exactly the ids present in `current` but not
in `previous`, `resolvedFindings` exactly the ids present in `previous` but
not in `current`, and an id carried by both runs with a differing status
(the status of an id is its last occurrence's status, exactly as in the Go
map construction) is in `regressionFindings` precisely when the current
severity rank exceeds the previous one and in `improvedFindings` precisely
otherwise. -/
theorem ComputeDelta_correct :
    (∀ current score, ComputeDelta current score none = none) ∧
    ∀ current score prev, ∃ d, ComputeDelta current score (some prev) = some d ∧
      (∀ id, id ∈ d.NewFindings ↔
        id ∈ current.map FindingSnapshot.ID ∧
          id ∉ prev.Status.Findings.map FindingSnapshot.ID) ∧
      (∀ id, id ∈ d.ResolvedFindings ↔
        id ∈ prev.Status.Findings.map FindingSnapshot.ID ∧
          id ∉ current.map FindingSnapshot.ID) ∧
      (∀ id, id ∈ d.RegressionFindings ↔
        ∃ cs ps, buildStatusMap current id = some cs ∧
          buildStatusMap prev.Status.Findings id = some ps ∧
          cs ≠ ps ∧ severityLevel ps < severityLevel cs) ∧
      (∀ id, id ∈ d.ImprovedFindings ↔
        ∃ cs ps, buildStatusMap current id = some cs ∧
          buildStatusMap prev.Status.Findings id = some ps ∧
          cs ≠ ps ∧ severityLevel cs ≤ severityLevel ps) := by
  refine ⟨fun _ _ => rfl,
    fun current score prev => ⟨deltaCore current score prev, rfl, ?_, ?_, ?_, ?_⟩⟩
  · exact mem_deltaCore_new current score prev
  · exact mem_deltaCore_resolved current score prev
  · exact mem_deltaCore_regressed current score prev
  · exact mem_deltaCore_improved current score prev

/-- C4: for every delta produced from a non-nil previous snapshot the four
sequences are pairwise disjoint and each is sorted ascending in the
lexicographic order on strings. -/
theorem ComputeDelta_disjoint_sorted :
    ∀ current score prev, ∃ d, ComputeDelta current score (some prev) = some d ∧
      (∀ id, ¬(id ∈ d.NewFindings ∧ id ∈ d.ResolvedFindings)) ∧
      (∀ id, ¬(id ∈ d.NewFindings ∧ id ∈ d.RegressionFindings)) ∧
      (∀ id, ¬(id ∈ d.NewFindings ∧ id ∈ d.ImprovedFindings)) ∧
      (∀ id, ¬(id ∈ d.ResolvedFindings ∧ id ∈ d.RegressionFindings)) ∧
      (∀ id, ¬(id ∈ d.ResolvedFindings ∧ id ∈ d.ImprovedFindings)) ∧
      (∀ id, ¬(id ∈ d.RegressionFindings ∧ id ∈ d.ImprovedFindings)) ∧
      List.Sorted (fun a b : String => a ≤ b) d.NewFindings ∧
      List.Sorted (fun a b : String => a ≤ b) d.ResolvedFindings ∧
      List.Sorted (fun a b : String => a ≤ b) d.RegressionFindings ∧
      List.Sorted (fun a b : String => a ≤ b) d.ImprovedFindings := by
  intro current score prev
  refine ⟨deltaCore current score prev, rfl, ?_, ?_, ?_, ?_, ?_, ?_,
    sorted_sortStrings _, sorted_sortStrings _, sorted_sortStrings _, sorted_sortStrings _⟩
  · rintro id ⟨hn, hr⟩
    rw [mem_deltaCore_new] at hn
    rw [mem_deltaCore_resolved] at hr
    exact hn.2 hr.1
  · rintro id ⟨hn, hr⟩
    rw [mem_deltaCore_new] at hn
    rw [mem_deltaCore_regressed] at hr
    obtain ⟨cs, ps, _, hp, _, _⟩ := hr
    exact hn.2 ((buildStatusMap_some_iff _ id).mp ⟨ps, hp⟩)
  · rintro id ⟨hn, hr⟩
    rw [mem_deltaCore_new] at hn
    rw [mem_deltaCore_improved] at hr
    obtain ⟨cs, ps, _, hp, _, _⟩ := hr
    exact hn.2 ((buildStatusMap_some_iff _ id).mp ⟨ps, hp⟩)
  · rintro id ⟨hn, hr⟩
    rw [mem_deltaCore_resolved] at hn
    rw [mem_deltaCore_regressed] at hr
    obtain ⟨cs, ps, hc, _, _, _⟩ := hr
    exact hn.2 ((buildStatusMap_some_iff _ id).mp ⟨cs, hc⟩)
  · rintro id ⟨hn, hr⟩
    rw [mem_deltaCore_resolved] at hn
    rw [mem_deltaCore_improved] at hr
    obtain ⟨cs, ps, hc, _, _, _⟩ := hr
    exact hn.2 ((buildStatusMap_some_iff _ id).mp ⟨cs, hc⟩)
  · rintro id ⟨hr, hi⟩
    rw [mem_deltaCore_regressed] at hr
    rw [mem_deltaCore_improved] at hi
    obtain ⟨cs, ps, hc, hp, hne, hlt⟩ := hr
    obtain ⟨cs2, ps2, hc2, hp2, hne2, hle⟩ := hi
    rw [hc] at hc2
    rw [hp] at hp2
    injection hc2 with e1
    injection hp2 with e2
    subst e1
    subst e2
    omega

/-- C7: `scoreDelta` is present iff both the current and the previous score
are present, and then equals current − previous; consequently it is
negative exactly when the score dropped. -/
theorem ComputeDelta_scoreDelta_spec :
    (∀ current score prev,
      (ComputeDelta current score (some prev)).map DeltaSummary.ScoreDelta =
        some (match score, prev.Status.Summary.Score with
          | some c, some p => some (c - p)
          | _, _ => none)) ∧
    ∀ current prev (c p : Int), prev.Status.Summary.Score = some p →
      ∃ d, ComputeDelta current (some c) (some prev) = some d ∧
        d.ScoreDelta = some (c - p) ∧ (c - p < 0 ↔ c < p) := by
  constructor
  · intro current score prev
    simp [ComputeDelta, deltaCore_scoreDelta]
  · intro current prev c p hp
    refine ⟨deltaCore current (some c) prev, rfl, ?_, by omega⟩
    rw [deltaCore_scoreDelta, hp]

/-! ### Sample values used by witnesses -/

/-- A sample summary used by concrete witness instantiations. -/
def sampleSummary : AssessmentSummary :=
  { TotalChecks := 2, PassCount := 1, WarnCount := 0, FailCount := 1,
    InfoCount := 0, Score := some 72, ProfileUsed := "production" }

/-- A sample cluster-info record used by concrete witness instantiations. -/
def sampleClusterInfo : ClusterInfo :=
  { ClusterID := "abc", ClusterVersion := "4.16.0", Platform := "AWS",
    Channel := "stable-4.16", NodeCount := 6, ControlPlaneNodes := 3,
    WorkerNodes := 3 }

/-- Status record of the sample previous snapshot. -/
def sampleSnapshotStatus : AssessmentSnapshotStatus :=
  { RunTime := 100, Summary := sampleSummary, clusterInfo := sampleClusterInfo,
    Findings := [], Delta := none, PreviousSnapshotName := "" }

/-- A sample previous snapshot with score 72 and no findings. -/
def sampleSnapshot : AssessmentSnapshot :=
  { Name := "req-20240101-000000",
    Spec := { AssessmentName := "req", Profile := "production" },
    Status := sampleSnapshotStatus }

/-- Witness for C7, instantiating the hypothesis-bearing half at a concrete
previous snapshot whose score is 72 and a current score of 85. -/
theorem ComputeDelta_scoreDelta_spec_witness :
    ∃ d, ComputeDelta [] (some 85) (some sampleSnapshot) = some d ∧
      d.ScoreDelta = some (85 - 72) ∧ ((85 : Int) - 72 < 0 ↔ (85 : Int) < 72) :=
  ComputeDelta_scoreDelta_spec.2 [] sampleSnapshot 85 72 rfl

/-- C8: the severity rank used for delta comparisons maps INFO to 0, PASS
to 1, WARN to 2 and FAIL to 3, and agrees with the ordering used by the
severity filter on every status. -/
theorem severityLevel_spec :
    severityLevel .INFO = 0 ∧ severityLevel .PASS = 1 ∧
    severityLevel .WARN = 2 ∧ severityLevel .FAIL = 3 ∧
    ∀ s, severityLevel s = filterSeverityRank s :=
  ⟨rfl, rfl, rfl, rfl, fun s => by cases s <;> rfl⟩

/-- C9: compacting findings preserves the identity fields id, validator,
category, status, title, resource and namespace (so an expansion reading
them back recovers them unchanged), and the compact list has the same
length and order as the input. -/
theorem compactFindings_preserves_identity :
    ∀ fs : List Finding,
      (compactFindings fs).length = fs.length ∧
      (compactFindings fs).map FindingSnapshot.ID = fs.map Finding.ID ∧
      (compactFindings fs).map FindingSnapshot.Validator = fs.map Finding.Validator ∧
      (compactFindings fs).map FindingSnapshot.Category = fs.map Finding.Category ∧
      (compactFindings fs).map FindingSnapshot.Status = fs.map Finding.Status ∧
      (compactFindings fs).map FindingSnapshot.Title = fs.map Finding.Title ∧
      (compactFindings fs).map FindingSnapshot.Resource = fs.map Finding.Resource ∧
      (compactFindings fs).map FindingSnapshot.Namespace = fs.map Finding.Namespace := by
  intro fs
  refine ⟨?_, ?_, ?_, ?_, ?_, ?_, ?_, ?_⟩ <;>
    simp [compactFindings, List.map_map, Function.comp]

/-! ### Profile resolver (pkg/profiles) -/

/-- Built-in profile name constant (`ProfileProduction`). -/
def ProfileProduction : String := "production"

/-- Built-in profile name constant (`ProfileDevelopment`). -/
def ProfileDevelopment : String := "development"

/-- Resolved threshold record (`Thresholds` of the profiles package; the
field set mirrors `ThresholdOverrides` of api/v1alpha1 without pointers). -/
structure Thresholds where
  MinControlPlaneNodes : Int
  MinWorkerNodes : Int
  MaxPodsPerNode : Int
  MaxClusterAdminBindings : Int
  RequireNetworkPolicy : Bool
  RequireResourceQuotas : Bool
  RequireLimitRanges : Bool
  MaxDaysWithoutUpdate : Int
  AllowPrivilegedContainers : Bool
  RequireDefaultStorageClass : Bool
deriving DecidableEq, Repr

/-- Resolved immutable profile (`Profile` of the profiles package): name,
description, thresholds, strictness, validator selection. -/
structure Profile where
  Name : String
  Description : String
  Thresholds : Thresholds
  Strictness : Int
  EnabledValidators : List String
  DisabledChecks : List String
deriving DecidableEq, Repr

/-- Modelled from the spec: the compiled-in production profile (threshold
table of §4.3; the profiles source file with the built-in values is not
under the provided sources).  The spec's table does not list
`MaxPodsPerNode`, a description, or validator lists; the description is a
placeholder and the lists are empty ("all validators", "no disabled
checks"), which no claim depends on. -/
def productionProfile : Profile :=
  { Name := ProfileProduction
    Description := "Strict profile for production clusters"
    Thresholds :=
      { MinControlPlaneNodes := 3, MinWorkerNodes := 3, MaxPodsPerNode := 250,
        MaxClusterAdminBindings := 5, RequireNetworkPolicy := true,
        RequireResourceQuotas := true, RequireLimitRanges := true,
        MaxDaysWithoutUpdate := 90, AllowPrivilegedContainers := false,
        RequireDefaultStorageClass := true }
    Strictness := 7
    EnabledValidators := []
    DisabledChecks := [] }

/-- Modelled from the spec: the compiled-in development profile (threshold
table of §4.3); same conventions as `productionProfile`. -/
def developmentProfile : Profile :=
  { Name := ProfileDevelopment
    Description := "Relaxed profile for development clusters"
    Thresholds :=
      { MinControlPlaneNodes := 1, MinWorkerNodes := 1, MaxPodsPerNode := 250,
        MaxClusterAdminBindings := 20, RequireNetworkPolicy := false,
        RequireResourceQuotas := false, RequireLimitRanges := false,
        MaxDaysWithoutUpdate := 180, AllowPrivilegedContainers := true,
        RequireDefaultStorageClass := false }
    Strictness := 3
    EnabledValidators := []
    DisabledChecks := [] }

/-- Modelled from the spec: `GetProfile` returns the compiled-in profile
for a built-in name (its source file is not under the provided sources).
Callers only pass "production" or "development" (or a validated basedOn);
any other name falls back to the production profile. -/
def GetProfile (name : String) : Profile :=
  if name = ProfileDevelopment then developmentProfile else productionProfile

/-- Pointer-based threshold overrides (`ThresholdOverrides` of
api/v1alpha1): `none` means inherit from the base profile. -/
structure ThresholdOverrides where
  MinControlPlaneNodes : Option Int
  MinWorkerNodes : Option Int
  MaxPodsPerNode : Option Int
  MaxClusterAdminBindings : Option Int
  RequireNetworkPolicy : Option Bool
  RequireResourceQuotas : Option Bool
  RequireLimitRanges : Option Bool
  MaxDaysWithoutUpdate : Option Int
  AllowPrivilegedContainers : Option Bool
  RequireDefaultStorageClass : Option Bool
deriving DecidableEq, Repr

/-- `AssessmentProfileSpec` of api/v1alpha1 (Go nil slices and empty slices
behave identically in the merged code paths, so both are `[]`). -/
structure AssessmentProfileSpec where
  Description : String
  BasedOn : String
  Thresholds : Option ThresholdOverrides
  EnabledValidators : List String
  DisabledValidators : List String
  DisabledChecks : List String
deriving DecidableEq, Repr

/-- `AssessmentProfile` of api/v1alpha1: object name plus spec (the status
sub-record is written by the controller and not read by the merge). -/
structure AssessmentProfile where
  Name : String
  Spec : AssessmentProfileSpec
deriving DecidableEq, Repr

/-- The ten threshold-override assignments of `mergeProfile`: each Go
`if t.X != nil { base.Thresholds.X = *t.X }` acts on its own field, here
written field-wise. -/
def applyThresholdOverrides (t : ThresholdOverrides) (b : Thresholds) : Thresholds :=
  { MinControlPlaneNodes :=
      match t.MinControlPlaneNodes with | some v => v | none => b.MinControlPlaneNodes
    MinWorkerNodes :=
      match t.MinWorkerNodes with | some v => v | none => b.MinWorkerNodes
    MaxPodsPerNode :=
      match t.MaxPodsPerNode with | some v => v | none => b.MaxPodsPerNode
    MaxClusterAdminBindings :=
      match t.MaxClusterAdminBindings with | some v => v | none => b.MaxClusterAdminBindings
    RequireNetworkPolicy :=
      match t.RequireNetworkPolicy with | some v => v | none => b.RequireNetworkPolicy
    RequireResourceQuotas :=
      match t.RequireResourceQuotas with | some v => v | none => b.RequireResourceQuotas
    RequireLimitRanges :=
      match t.RequireLimitRanges with | some v => v | none => b.RequireLimitRanges
    MaxDaysWithoutUpdate :=
      match t.MaxDaysWithoutUpdate with | some v => v | none => b.MaxDaysWithoutUpdate
    AllowPrivilegedContainers :=
      match t.AllowPrivilegedContainers with | some v => v | none => b.AllowPrivilegedContainers
    RequireDefaultStorageClass :=
      match t.RequireDefaultStorageClass with | some v => v | none => b.RequireDefaultStorageClass }

/-- `mergeProfile` from the profiles package: start from the base profile,
override identity, thresholds and validator lists from the custom CR.
Note the last step is a plain list `append` of the disabled checks. -/
def mergeProfile (custom : AssessmentProfile) : Profile :=
  let baseName := if custom.Spec.BasedOn = "" then ProfileProduction else custom.Spec.BasedOn
  let base := GetProfile baseName
  let base := { base with Name := custom.Name }
  let base :=
    if custom.Spec.Description ≠ "" then { base with Description := custom.Spec.Description }
    else base
  let base :=
    match custom.Spec.Thresholds with
    | none => base
    | some t => { base with Thresholds := applyThresholdOverrides t base.Thresholds }
  let base :=
    if custom.Spec.EnabledValidators.length > 0 then
      { base with EnabledValidators := custom.Spec.EnabledValidators }
    else base
  let base :=
    if custom.Spec.DisabledChecks.length > 0 then
      { base with DisabledChecks := base.DisabledChecks ++ custom.Spec.DisabledChecks }
    else base
  base

/-- The base profile a custom profile merges onto. -/
def baseOf (custom : AssessmentProfile) : Profile :=
  GetProfile (if custom.Spec.BasedOn = "" then ProfileProduction else custom.Spec.BasedOn)

/-- C2 (amended): each non-null threshold override replaces the base value
and a null pointer inherits it; the name is replaced by the override's
name; a non-empty description replaces the base description; a non-empty
enabledValidators list replaces the base list; and a non-empty
disabledChecks list is appended to the base list by plain concatenation
(ids already present in the base or repeated in the override stay
duplicated — no set union). -/
theorem mergeProfile_spec (custom : AssessmentProfile) :
    (mergeProfile custom).Name = custom.Name ∧
    (mergeProfile custom).Description =
      (if custom.Spec.Description = "" then (baseOf custom).Description
       else custom.Spec.Description) ∧
    (mergeProfile custom).Strictness = (baseOf custom).Strictness ∧
    (mergeProfile custom).Thresholds.MinControlPlaneNodes =
      ((custom.Spec.Thresholds.bind ThresholdOverrides.MinControlPlaneNodes).getD
        (baseOf custom).Thresholds.MinControlPlaneNodes) ∧
    (mergeProfile custom).Thresholds.MinWorkerNodes =
      ((custom.Spec.Thresholds.bind ThresholdOverrides.MinWorkerNodes).getD
        (baseOf custom).Thresholds.MinWorkerNodes) ∧
    (mergeProfile custom).Thresholds.MaxPodsPerNode =
      ((custom.Spec.Thresholds.bind ThresholdOverrides.MaxPodsPerNode).getD
        (baseOf custom).Thresholds.MaxPodsPerNode) ∧
    (mergeProfile custom).Thresholds.MaxClusterAdminBindings =
      ((custom.Spec.Thresholds.bind ThresholdOverrides.MaxClusterAdminBindings).getD
        (baseOf custom).Thresholds.MaxClusterAdminBindings) ∧
    (mergeProfile custom).Thresholds.RequireNetworkPolicy =
      ((custom.Spec.Thresholds.bind ThresholdOverrides.RequireNetworkPolicy).getD
        (baseOf custom).Thresholds.RequireNetworkPolicy) ∧
    (mergeProfile custom).Thresholds.RequireResourceQuotas =
      ((custom.Spec.Thresholds.bind ThresholdOverrides.RequireResourceQuotas).getD
        (baseOf custom).Thresholds.RequireResourceQuotas) ∧
    (mergeProfile custom).Thresholds.RequireLimitRanges =
      ((custom.Spec.Thresholds.bind ThresholdOverrides.RequireLimitRanges).getD
        (baseOf custom).Thresholds.RequireLimitRanges) ∧
    (mergeProfile custom).Thresholds.MaxDaysWithoutUpdate =
      ((custom.Spec.Thresholds.bind ThresholdOverrides.MaxDaysWithoutUpdate).getD
        (baseOf custom).Thresholds.MaxDaysWithoutUpdate) ∧
    (mergeProfile custom).Thresholds.AllowPrivilegedContainers =
      ((custom.Spec.Thresholds.bind ThresholdOverrides.AllowPrivilegedContainers).getD
        (baseOf custom).Thresholds.AllowPrivilegedContainers) ∧
    (mergeProfile custom).Thresholds.RequireDefaultStorageClass =
      ((custom.Spec.Thresholds.bind ThresholdOverrides.RequireDefaultStorageClass).getD
        (baseOf custom).Thresholds.RequireDefaultStorageClass) ∧
    (mergeProfile custom).EnabledValidators =
      (if custom.Spec.EnabledValidators.isEmpty then (baseOf custom).EnabledValidators
       else custom.Spec.EnabledValidators) ∧
    (mergeProfile custom).DisabledChecks =
      (baseOf custom).DisabledChecks ++ custom.Spec.DisabledChecks := by
  cases ht : custom.Spec.Thresholds with
  | none =>
    by_cases hd : custom.Spec.Description = "" <;>
      by_cases he : custom.Spec.EnabledValidators = [] <;>
        by_cases hdc : custom.Spec.DisabledChecks = [] <;>
          simp [mergeProfile, baseOf, ht, hd, he, hdc, List.isEmpty_iff,
            List.length_pos]
  | some t =>
    by_cases hd : custom.Spec.Description = "" <;>
      by_cases he : custom.Spec.EnabledValidators = [] <;>
        by_cases hdc : custom.Spec.DisabledChecks = [] <;>
          simp [mergeProfile, baseOf, applyThresholdOverrides, ht, hd, he, hdc,
            List.isEmpty_iff, List.length_pos, Option.getD] <;>
          refine ⟨?_, ?_, ?_, ?_, ?_, ?_, ?_, ?_, ?_, ?_⟩ <;>
          first
          | (cases t.MinControlPlaneNodes <;> rfl)
          | (cases t.MinWorkerNodes <;> rfl)
          | (cases t.MaxPodsPerNode <;> rfl)
          | (cases t.MaxClusterAdminBindings <;> rfl)
          | (cases t.RequireNetworkPolicy <;> rfl)
          | (cases t.RequireResourceQuotas <;> rfl)
          | (cases t.RequireLimitRanges <;> rfl)
          | (cases t.MaxDaysWithoutUpdate <;> rfl)
          | (cases t.AllowPrivilegedContainers <;> rfl)
          | (cases t.RequireDefaultStorageClass <;> rfl)

/-- A custom profile disabling the same check id twice. -/
def dupChecksProfile : AssessmentProfile :=
  { Name := "skip-checks"
    Spec :=
      { Description := "", BasedOn := "production", Thresholds := none,
        EnabledValidators := [], DisabledValidators := [],
        DisabledChecks := ["nodes-os-consistency", "nodes-os-consistency"] } }

/-- C2 counterexample: `mergeProfile` appends `disabledChecks` without any
deduplication, so the merged list can carry the same check id twice —
contradicting the claimed set-union semantics ("no duplicate ids"). -/
theorem mergeProfile_not_set_union :
    (mergeProfile dupChecksProfile).DisabledChecks =
      ["nodes-os-consistency", "nodes-os-consistency"] ∧
    ¬ (mergeProfile dupChecksProfile).DisabledChecks.Nodup := by
  constructor
  · rfl
  · decide

/-! ### Profile override validation (controllers/assessmentprofile_controller.go) -/

/-- `validateProfile` from controllers/assessmentprofile_controller.go:
returns (ready, message, resolvedValidatorCount).  `registeredNames` is
`Registry.Names()`; the registry is a name-keyed map, so its name list is
duplicate-free.  The Go loops return at the first unknown name, embedded
here by `List.find?`. -/
def validateProfile (registeredNames : List String) (profile : AssessmentProfile) :
    Bool × String × Nat :=
  let basedOn := if profile.Spec.BasedOn = "" then ProfileProduction else profile.Spec.BasedOn
  if basedOn ≠ ProfileProduction ∧ basedOn ≠ ProfileDevelopment then
    (false, s!"invalid basedOn value \"{basedOn}\": must be \"production\" or \"development\"", 0)
  else
    match profile.Spec.EnabledValidators.find? (fun name => !registeredNames.contains name) with
    | some name => (false, s!"unknown validator \"{name}\" in enabledValidators", 0)
    | none =>
      match profile.Spec.DisabledValidators.find? (fun name => !registeredNames.contains name) with
      | some name => (false, s!"unknown validator \"{name}\" in disabledValidators", 0)
      | none =>
        let validatorCount :=
          if profile.Spec.EnabledValidators.length > 0 then
            profile.Spec.EnabledValidators.length
          else if profile.Spec.DisabledValidators.length > 0 then
            (registeredNames.filter fun name => !profile.Spec.DisabledValidators.contains name).length
          else
            registeredNames.length
        (true, "Profile is valid", validatorCount)

/-- The validation inputs are well-formed: basedOn (after defaulting) is a
built-in, and every name in enabledValidators / disabledValidators is
registered. -/
def profileInputsValid (registeredNames : List String) (profile : AssessmentProfile) : Prop :=
  ((if profile.Spec.BasedOn = "" then ProfileProduction else profile.Spec.BasedOn) = ProfileProduction ∨
    (if profile.Spec.BasedOn = "" then ProfileProduction else profile.Spec.BasedOn) = ProfileDevelopment) ∧
  (∀ n ∈ profile.Spec.EnabledValidators, n ∈ registeredNames) ∧
  (∀ n ∈ profile.Spec.DisabledValidators, n ∈ registeredNames)

/-- Counting registered names outside a disabled list: with a
duplicate-free registry and every disabled name registered, the survivors
number `|registered| − |distinct disabled names|`. -/
theorem length_filter_not_contains (reg dis : List String) (hnd : reg.Nodup)
    (hsub : ∀ n ∈ dis, n ∈ reg) :
    (reg.filter fun n => !dis.contains n).length = reg.length - dis.dedup.length := by
  have hperm : List.Perm (reg.filter fun n => dis.contains n) dis.dedup := by
    rw [List.perm_ext_iff_of_nodup (hnd.filter _) (List.nodup_dedup dis)]
    intro a
    simp only [List.mem_filter, List.mem_dedup, List.elem_iff]
    constructor
    · rintro ⟨_, hc⟩
      exact hc
    · intro ha
      exact ⟨hsub a ha, ha⟩
  have hlen := hperm.length_eq
  have hsplit : reg.length = (reg.filter fun n => dis.contains n).length +
      (reg.filter fun n => !dis.contains n).length :=
    List.length_eq_length_filter_add _
  omega

/-- C5 (amended): validation returns ready=false with
resolvedValidatorCount=0 exactly when basedOn (after defaulting) is not a
known built-in or some name in enabledValidators or disabledValidators is
not registered; on success it returns ready=true and a count of
|enabledValidators| if that list is non-empty, else the number of
registered validators not listed in disabledValidators (which equals
|registered| − |disabledValidators| only when the disabled list has no
duplicate names — here |registered| − |distinct disabled names|), else
|registered|. -/
theorem validateProfile_spec (registeredNames : List String)
    (profile : AssessmentProfile) (hnd : registeredNames.Nodup) :
    (¬ profileInputsValid registeredNames profile →
      (validateProfile registeredNames profile).1 = false ∧
      (validateProfile registeredNames profile).2.2 = 0) ∧
    (profileInputsValid registeredNames profile →
      (validateProfile registeredNames profile).1 = true ∧
      (validateProfile registeredNames profile).2.2 =
        (if profile.Spec.EnabledValidators ≠ [] then
          profile.Spec.EnabledValidators.length
        else if profile.Spec.DisabledValidators ≠ [] then
          registeredNames.length - profile.Spec.DisabledValidators.dedup.length
        else registeredNames.length)) := by
  by_cases hb :
      ((if profile.Spec.BasedOn = "" then ProfileProduction else profile.Spec.BasedOn) ≠
        ProfileProduction ∧
        (if profile.Spec.BasedOn = "" then ProfileProduction else profile.Spec.BasedOn) ≠
          ProfileDevelopment)
  · refine ⟨fun _ => ⟨?_, ?_⟩, fun hvalid => ?_⟩
    · simp only [validateProfile]
      rw [if_pos hb]
    · simp only [validateProfile]
      rw [if_pos hb]
    · exfalso
      rcases hvalid.1 with h | h
      · exact hb.1 h
      · exact hb.2 h
  · cases hfe : profile.Spec.EnabledValidators.find?
        (fun name => !registeredNames.contains name) with
    | some n =>
      have hpn := List.find?_some hfe
      have hmem := List.mem_of_find?_eq_some hfe
      have hnotin : n ∉ registeredNames := by simpa using hpn
      refine ⟨fun _ => ⟨?_, ?_⟩, fun hvalid => ?_⟩
      · simp only [validateProfile]
        rw [if_neg hb, hfe]
      · simp only [validateProfile]
        rw [if_neg hb, hfe]
      · exact absurd (hvalid.2.1 n hmem) hnotin
    | none =>
      cases hfd : profile.Spec.DisabledValidators.find?
          (fun name => !registeredNames.contains name) with
      | some n =>
        have hpn := List.find?_some hfd
        have hmem := List.mem_of_find?_eq_some hfd
        have hnotin : n ∉ registeredNames := by simpa using hpn
        refine ⟨fun _ => ⟨?_, ?_⟩, fun hvalid => ?_⟩
        · simp only [validateProfile]
          rw [if_neg hb, hfe, hfd]
        · simp only [validateProfile]
          rw [if_neg hb, hfe, hfd]
        · exact absurd (hvalid.2.2 n hmem) hnotin
      | none =>
        have hesub : ∀ n ∈ profile.Spec.EnabledValidators, n ∈ registeredNames := by
          intro n hn
          have h := List.find?_eq_none.mp hfe n hn
          simpa using h
        have hdsub : ∀ n ∈ profile.Spec.DisabledValidators, n ∈ registeredNames := by
          intro n hn
          have h := List.find?_eq_none.mp hfd n hn
          simpa using h
        have hbor :
            (if profile.Spec.BasedOn = "" then ProfileProduction else profile.Spec.BasedOn) =
              ProfileProduction ∨
            (if profile.Spec.BasedOn = "" then ProfileProduction else profile.Spec.BasedOn) =
              ProfileDevelopment := by
          rcases not_and_or.mp hb with h | h
          · exact Or.inl (not_not.mp h)
          · exact Or.inr (not_not.mp h)
        have hcnt : (validateProfile registeredNames profile).2.2 =
            (if 0 < profile.Spec.EnabledValidators.length then
              profile.Spec.EnabledValidators.length
            else if 0 < profile.Spec.DisabledValidators.length then
              (registeredNames.filter fun name =>
                !profile.Spec.DisabledValidators.contains name).length
            else registeredNames.length) := by
          simp only [validateProfile]
          rw [if_neg hb, hfe, hfd]
        refine ⟨fun hninv => absurd ⟨hbor, hesub, hdsub⟩ hninv, fun _ => ⟨?_, ?_⟩⟩
        · simp only [validateProfile]
          rw [if_neg hb, hfe, hfd]
        · rw [hcnt]
          by_cases he : profile.Spec.EnabledValidators = []
          · by_cases hd : profile.Spec.DisabledValidators = []
            · simp [he, hd]
            · have hcount := length_filter_not_contains registeredNames
                profile.Spec.DisabledValidators hnd hdsub
              have hdpos : 0 < profile.Spec.DisabledValidators.length :=
                List.length_pos.mpr hd
              simp [he, hd, hdpos]
              simpa using hcount
          · have hepos : 0 < profile.Spec.EnabledValidators.length :=
              List.length_pos.mpr he
            simp [he, hepos]

/-- A profile listing the same disabled validator twice (valid input: the
name is registered). -/
def dupDisabledProfile : AssessmentProfile :=
  { Name := "dup-disabled"
    Spec :=
      { Description := "", BasedOn := "", Thresholds := none,
        EnabledValidators := [], DisabledValidators := ["a", "a"],
        DisabledChecks := [] } }

/-- C5 counterexample: with registry {a, b} and disabledValidators
["a", "a"] validation succeeds and the code counts 1 remaining validator,
but |registered| − |disabledValidators| = 2 − 2 = 0 ≠ 1. -/
theorem validateProfile_count_counterexample :
    (validateProfile ["a", "b"] dupDisabledProfile).1 = true ∧
    (validateProfile ["a", "b"] dupDisabledProfile).2.2 = 1 ∧
    (["a", "b"] : List String).length - (["a", "a"] : List String).length = 0 := by
  refine ⟨?_, ?_, ?_⟩ <;> decide

/-- Witness for C5: the success branch of `validateProfile_spec` evaluated
at the concrete registry {a, b} and the duplicate-disabled profile. -/
theorem validateProfile_spec_witness :
    (validateProfile ["a", "b"] dupDisabledProfile).1 = true ∧
    (validateProfile ["a", "b"] dupDisabledProfile).2.2 =
      (if dupDisabledProfile.Spec.EnabledValidators ≠ [] then
        dupDisabledProfile.Spec.EnabledValidators.length
      else if dupDisabledProfile.Spec.DisabledValidators ≠ [] then
        (["a", "b"] : List String).length -
          dupDisabledProfile.Spec.DisabledValidators.dedup.length
      else (["a", "b"] : List String).length) :=
  (validateProfile_spec ["a", "b"] dupDisabledProfile (by decide)).2
    (by unfold profileInputsValid; exact ⟨Or.inl (by decide), by decide, by decide⟩)

/-! ### Profile resolution (`Resolver.Resolve` of pkg/profiles) -/

/-- `Resolve` from the profiles package.  The cluster state store (the
controller-runtime client) is modelled as a partial map from profile names
to `AssessmentProfile` records; `client.Get` returning an error for a
missing record becomes `none`. -/
def Resolve (store : String → Option AssessmentProfile) (profileName : String) :
    Except String Profile :=
  let resolvedName := if profileName = "" then ProfileProduction else profileName
  if resolvedName = ProfileProduction ∨ resolvedName = ProfileDevelopment then
    Except.ok (GetProfile resolvedName)
  else
    match store resolvedName with
    | none => Except.error s!"profile \"{resolvedName}\" not found"
    | some customProfile => Except.ok (mergeProfile customProfile)

/-- C6: the empty profile name resolves to the compiled-in production
profile; the built-in names resolve to the compiled-in profiles without
consulting the state store (the result is independent of the store); any
other name not present in the store yields an error and no profile. -/
theorem Resolve_spec :
    (∀ store, Resolve store "" = Except.ok (GetProfile ProfileProduction)) ∧
    (∀ store name, (name = ProfileProduction ∨ name = ProfileDevelopment) →
      Resolve store name = Except.ok (GetProfile name)) ∧
    (∀ store name, name ≠ "" → name ≠ ProfileProduction → name ≠ ProfileDevelopment →
      store name = none → ∃ msg, Resolve store name = Except.error msg) := by
  refine ⟨fun store => ?_, fun store name h => ?_, fun store name h0 h1 h2 hs => ?_⟩
  · simp [Resolve]
  · rcases h with h | h <;> subst h <;> simp [Resolve, ProfileProduction, ProfileDevelopment]
  · simp only [Resolve]
    rw [if_neg h0,
      if_neg (show ¬(name = ProfileProduction ∨ name = ProfileDevelopment) from
        fun hor => hor.elim h1 h2), hs]
    exact ⟨_, rfl⟩

/-- Witness for C6: a built-in name resolves against an empty store, and a
missing custom name errors against an empty store. -/
theorem Resolve_spec_witness :
    Resolve (fun _ => none) ProfileDevelopment = Except.ok (GetProfile ProfileDevelopment) ∧
    ∃ msg, Resolve (fun _ => none) "custom" = Except.error msg :=
  ⟨Resolve_spec.2.1 (fun _ => none) ProfileDevelopment (Or.inr rfl),
   Resolve_spec.2.2 (fun _ => none) "custom" (by decide) (by decide) (by decide) rfl⟩

/-! ### History pruning (`PruneHistory` of pkg/history/snapshot.go) -/

/-- A labelled snapshot as seen by pruning: object name and runTime. -/
structure SnapRef where
  Name : String
  RunTime : Int
deriving DecidableEq, Repr

instance : IsTotal SnapRef (fun a b => a.RunTime ≤ b.RunTime) :=
  ⟨fun a b => le_total a.RunTime b.RunTime⟩

instance : IsTrans SnapRef (fun a b => a.RunTime ≤ b.RunTime) :=
  ⟨fun _ _ _ hab hbc => le_trans hab hbc⟩

/-- The snapshots `PruneHistory` tries to delete: the labelled list sorted
by runTime ascending (Go sorts with `RunTime.Before`, an unstable sort;
ties are broken by one fixed order here), first `count − limit` entries;
empty when `count ≤ limit`. -/
def pruneVictims (snaps : List SnapRef) (limit : Nat) : List SnapRef :=
  if snaps.length ≤ limit then []
  else (List.insertionSort (fun a b => a.RunTime ≤ b.RunTime) snaps).take
    (snaps.length - limit)

/-- `PruneHistory` from pkg/history/snapshot.go over the labelled snapshot
list of one assessment.  `delOk s = false` models `client.Delete` failing
for `s` (the Go loop logs the error and continues).  Returns the snapshots
still stored and the returned count: `count` when `count ≤ limit`,
otherwise always `limit`. -/
def PruneHistory (snaps : List SnapRef) (limit : Nat) (delOk : SnapRef → Bool) :
    List SnapRef × Nat :=
  if snaps.length ≤ limit then (snaps, snaps.length)
  else
    (snaps.filter fun s => !(decide (s ∈ pruneVictims snaps limit) && delOk s), limit)

/-- C3 (amended): `PruneHistory` attempts to delete exactly the oldest
`count − limit` snapshots (every victim's runTime is at most every
survivor candidate's runTime); a failed deletion does not abort pruning of
the remaining victims (every victim whose delete succeeds is removed even
if others fail); and when every deletion succeeds the number of labelled
snapshots left never exceeds the limit.  (A failed deletion can leave more
than `limit` snapshots — see the counterexample.) -/
theorem PruneHistory_bounded (snaps : List SnapRef) (limit : Nat)
    (delOk : SnapRef → Bool) :
    ((∀ s, delOk s = true) → (PruneHistory snaps limit delOk).1.length ≤ limit) ∧
    (∀ s ∈ pruneVictims snaps limit, delOk s = true →
      s ∉ (PruneHistory snaps limit delOk).1) ∧
    (∀ v ∈ pruneVictims snaps limit, ∀ s ∈ snaps,
      s ∉ pruneVictims snaps limit → v.RunTime ≤ s.RunTime) := by
  by_cases hle : snaps.length ≤ limit
  · refine ⟨fun _ => ?_, fun s hs => ?_, fun v hv => ?_⟩
    · simp [PruneHistory, hle]
    · simp [pruneVictims, hle] at hs
    · simp [pruneVictims, hle] at hv
  · have hperm : List.Perm snaps
        (List.insertionSort (fun a b => a.RunTime ≤ b.RunTime) snaps) :=
      (List.perm_insertionSort _ snaps).symm
    have hsorted : List.Sorted (fun a b : SnapRef => a.RunTime ≤ b.RunTime)
        (List.insertionSort (fun a b => a.RunTime ≤ b.RunTime) snaps) :=
      List.sorted_insertionSort _ snaps
    refine ⟨fun hall => ?_, fun s hs hdel hmem => ?_, fun v hv s hsm hsnot => ?_⟩
    · have hfp : List.Perm
          (snaps.filter fun s => !(decide (s ∈ pruneVictims snaps limit) && delOk s))
          ((List.insertionSort (fun a b => a.RunTime ≤ b.RunTime) snaps).filter
            fun s => !(decide (s ∈ pruneVictims snaps limit) && delOk s)) :=
        hperm.filter _
      have hsplit := List.take_append_drop (snaps.length - limit)
        (List.insertionSort (fun a b => a.RunTime ≤ b.RunTime) snaps)
      have hvic : ∀ s ∈ pruneVictims snaps limit,
          (!(decide (s ∈ pruneVictims snaps limit) && delOk s)) = false := by
        intro s hs
        simp [hs, hall s]
      have hlen1 : (PruneHistory snaps limit delOk).1.length =
          ((List.insertionSort (fun a b => a.RunTime ≤ b.RunTime) snaps).filter
            fun s => !(decide (s ∈ pruneVictims snaps limit) && delOk s)).length := by
        simp only [PruneHistory, if_neg hle]
        exact hfp.length_eq
      rw [hlen1, ← hsplit, List.filter_append]
      have hnil : ((List.insertionSort (fun a b => a.RunTime ≤ b.RunTime) snaps).take
          (snaps.length - limit)).filter
            (fun s => !(decide (s ∈ pruneVictims snaps limit) && delOk s)) = [] := by
        rw [List.filter_eq_nil_iff]
        intro a ha
        have : a ∈ pruneVictims snaps limit := by
          rw [pruneVictims, if_neg hle]
          exact ha
        simp [this, hall a]
      rw [hnil, List.nil_append]
      have hdroplen : ((List.insertionSort (fun a b => a.RunTime ≤ b.RunTime) snaps).drop
          (snaps.length - limit)).length = limit := by
        rw [List.length_drop, hperm.length_eq.symm]
        omega
      exact le_trans (List.length_filter_le _ _) (le_of_eq hdroplen)
    · simp only [PruneHistory, if_neg hle] at hmem
      rw [List.mem_filter] at hmem
      simp [hs, hdel] at hmem
    · have hvs : v ∈ (List.insertionSort (fun a b => a.RunTime ≤ b.RunTime) snaps).take
          (snaps.length - limit) := by
        rw [pruneVictims, if_neg hle] at hv
        exact hv
      have hss : s ∈ (List.insertionSort (fun a b => a.RunTime ≤ b.RunTime) snaps).drop
          (snaps.length - limit) := by
        have : s ∈ (List.insertionSort (fun a b => a.RunTime ≤ b.RunTime) snaps) :=
          hperm.mem_iff.mp hsm
        rw [← List.take_append_drop (snaps.length - limit)
          (List.insertionSort (fun a b => a.RunTime ≤ b.RunTime) snaps),
          List.mem_append] at this
        rcases this with h | h
        · exfalso
          apply hsnot
          rw [pruneVictims, if_neg hle]
          exact h
        · exact h
      have hp : List.Pairwise (fun a b : SnapRef => a.RunTime ≤ b.RunTime)
          (List.insertionSort (fun a b => a.RunTime ≤ b.RunTime) snaps) := hsorted
      rw [← List.take_append_drop (snaps.length - limit)
        (List.insertionSort (fun a b => a.RunTime ≤ b.RunTime) snaps),
        List.pairwise_append] at hp
      exact hp.2.2 v hvs s hss

/-- Witness for C3: pruning three snapshots down to limit 1 with all
deletions succeeding leaves at most one snapshot. -/
theorem PruneHistory_bounded_witness :
    (PruneHistory [⟨"a", 3⟩, ⟨"b", 1⟩, ⟨"c", 2⟩] 1 (fun _ => true)).1.length ≤ 1 :=
  (PruneHistory_bounded [⟨"a", 3⟩, ⟨"b", 1⟩, ⟨"c", 2⟩] 1 (fun _ => true)).1
    (fun _ => rfl)

/-- C3 counterexample: with three labelled snapshots, limit 1 and every
deletion failing, `PruneHistory` leaves all three snapshots — the claimed
invariant "the number of snapshots never exceeds N" is violated. -/
theorem PruneHistory_exceeds_limit :
    (PruneHistory [⟨"s1", 1⟩, ⟨"s2", 2⟩, ⟨"s3", 3⟩] 1 (fun _ => false)).1.length = 3 ∧
    1 < (PruneHistory [⟨"s1", 1⟩, ⟨"s2", 2⟩, ⟨"s3", 3⟩] 1 (fun _ => false)).1.length := by
  refine ⟨?_, ?_⟩ <;> decide

/-- C10: whenever `PruneHistory` finds more labelled snapshots than the
limit it returns exactly the limit, whether or not deletions fail; with a
failing deletion the returned count understates the snapshots actually
remaining (so the reported snapshotCount and the store can disagree). -/
theorem PruneHistory_returns_limit :
    (∀ snaps limit delOk, limit < snaps.length →
      (PruneHistory snaps limit delOk).2 = limit) ∧
    ((PruneHistory [⟨"a", 1⟩, ⟨"b", 2⟩] 1 (fun _ => false)).2 = 1 ∧
      (PruneHistory [⟨"a", 1⟩, ⟨"b", 2⟩] 1 (fun _ => false)).1.length = 2) := by
  refine ⟨fun snaps limit delOk h => ?_, by decide, by decide⟩
  simp [PruneHistory, Nat.not_le.mpr h]

/-- Witness for C10: the returned count equals the limit at a concrete
overfull history. -/
theorem PruneHistory_returns_limit_witness :
    (PruneHistory [⟨"x", 5⟩, ⟨"y", 6⟩, ⟨"z", 7⟩] 2 (fun s => s.RunTime < 6)).2 = 2 :=
  PruneHistory_returns_limit.1 [⟨"x", 5⟩, ⟨"y", 6⟩, ⟨"z", 7⟩] 2
    (fun s => s.RunTime < 6) (by decide)
